import Mathlib

/-!
Verification of the pygmail IMAP client core against its design spec.

The Lean definitions below are a shallow embedding of the Python sources:

* `pygmail/utilities.py` — the IMAP response grammar parser
  (`LookAheadStringIter`, `read_quoted`, `read_literal`, `read_list`,
  `read_atom`, `read_flag`, `parse_recursive`, `parse`) and the token
  classes `Atom`, `Flag`, `AttributeSpec`;
* `pygmail/mailbox.py` — `page_from_list`, `Mailbox.count`, `Mailbox.select`;
* `pygmail/message.py` — `MessageBase.get_header`, `utf8_encode_message_part`,
  `message_part_charset`, `MessageBase.delete`, `Message.save`;
* `pygmail/errors.py` — `check_for_response_error` and the error taxonomy.

Python strings are modelled as `List Char` inside the parser (so the
look-ahead cursor is an index) and as `String` elsewhere; fallible code
returns `Except`/`Option`; object mutation is explicit state passing.
-/

namespace Pygmail

/-! ## Tokens (utilities.py: Atom, Flag, AttributeSpec, python str / list) -/

/-- The values produced by the response parser.  `str` is a plain Python
string (from `read_quoted` / `read_literal`), distinct from `Atom`;
`attr` is `AttributeSpec(primary, msgtext, header_list, range)` where the
source always supplies `msgtext` (either `''` or a nested `read_atom`
result) on this construction path. -/
inductive Token where
  | atom (value : String)
  | flag (value : String)
  | str (s : String)
  | list (items : List Token)
  | attr (primary : String) (msgtext : Token)
      (header_list : Option (List Token)) (range : Option Token)
deriving Repr

mutual

/-- Python `==` on parser tokens.  `Atom.__eq__` requires
`type(self) is type(other)` (so a `Flag` is never equal to an `Atom`, and
an `Atom` is never equal to a plain `str`); python lists compare
elementwise; distinct `AttributeSpec` instances have no `__eq__` and fall
back to object identity, which is `False` for the always-fresh objects the
parser produces. -/
def tokenEq : Token → Token → Bool
  | .atom a, .atom b => a == b
  | .flag a, .flag b => a == b
  | .str a, .str b => a == b
  | .list as, .list bs => tokenListEq as bs
  | _, _ => false

/-- Elementwise python `==` on lists of tokens. -/
def tokenListEq : List Token → List Token → Bool
  | [], [] => true
  | a :: as, b :: bs => tokenEq a b && tokenListEq as bs
  | _, _ => false
end

/-- `Atom.__ne__` (inherited by `Flag`): the negation of `__eq__`. -/
def tokenNe (a b : Token) : Bool := !(tokenEq a b)

/-! ## The look-ahead cursor (utilities.py: LookAheadStringIter) -/

/-- `LookAheadStringIter`: the parsed string together with the cursor
index.  `ParseError` diagnostics carry both fields. -/
structure Iter where
  string : List Char
  index : Nat
deriving Repr, DecidableEq

/-- `LookAheadStringIter.ahead`: the character under the cursor, if any. -/
def Iter.ahead (d : Iter) : Option Char := d.string.get? d.index

/-- `LookAheadStringIter.next`: consume one character; `none` models the
`StopIteration` at the end of the string. -/
def Iter.next (d : Iter) : Option (Char × Iter) :=
  match d.string.get? d.index with
  | some c => some (c, ⟨d.string, d.index + 1⟩)
  | none => none

/-- `LookAheadStringIter.read(count)`: take `count` characters (fewer if
the string ends first); the index advances by `count` regardless. -/
def Iter.read (d : Iter) (count : Nat) : List Char × Iter :=
  ((d.string.drop d.index).take count, ⟨d.string, d.index + count⟩)

theorem Iter.next_eq_some {d : Iter} {c : Char} {d' : Iter}
    (h : d.next = some (c, d')) :
    d.string.get? d.index = some c ∧ d'.string = d.string ∧
      d'.index = d.index + 1 ∧ d.index < d.string.length := by
  unfold Iter.next at h
  cases hg : d.string.get? d.index with
  | none => rw [hg] at h; exact absurd h (by simp)
  | some c0 =>
    rw [hg] at h
    cases h
    exact ⟨rfl, rfl, rfl, (List.get?_eq_some.mp hg).1⟩

/-! ## Errors (utilities.py: ParseError; python exceptions) -/

/-- Exceptions the parser can raise.  `parseError` is
`utilities.ParseError`, which formats the message together with
`data.string` and `data.index`; the others model python built-in
exceptions reached from this code.  `outOfFuel` is an artifact of the
fueled embedding of the mutually recursive parser and is never reached
with the fuel `parse` supplies. -/
inductive PyError where
  | parseError (msg : String) (string : List Char) (index : Nat)
  | assertionError
  | attributeError
  | stopIteration
  | outOfFuel
deriving Repr, DecidableEq

/-! ## read_quoted -/

/-- The `for c in data` loop body of `read_quoted`, structurally
recursive on a fuel that is the remaining character count (each loop
iteration consumes at least one character, and at fuel 0 the cursor is
exhausted, which is the same `ParseError` the loop's `else` raises):
stop at `"`, collapse a backslash escape of `"` or `\` (consuming the
escaped character), and raise `ParseError` if the string ends before the
closing quote. -/
def quotedBodyAux : Nat → Iter → List Char → Except PyError (List Char × Iter)
  | 0, d, _ => .error (.parseError "Unexpected end of quoted string" d.string d.index)
  | fuel + 1, d, acc =>
    match d.next with
    | none => .error (.parseError "Unexpected end of quoted string" d.string d.index)
    | some (c, d1) =>
      if c = '"' then .ok (acc, d1)
      else if c = '\\' then
        match d1.next with
        | some (c2, d2) =>
          if c2 = '"' ∨ c2 = '\\' then quotedBodyAux fuel d2 (acc ++ [c2])
          else quotedBodyAux fuel d1 (acc ++ [c])
        | none => quotedBodyAux fuel d1 (acc ++ [c])
      else quotedBodyAux fuel d1 (acc ++ [c])

/-- The `read_quoted` loop at its full fuel. -/
def quotedBody (d : Iter) (acc : List Char) : Except PyError (List Char × Iter) :=
  quotedBodyAux (d.string.length - d.index) d acc

/-- `read_quoted`: `assert data.next() == '"'` then scan the body. -/
def read_quoted (d : Iter) : Except PyError (List Char × Iter) :=
  match d.next with
  | none => .error .stopIteration
  | some (c, d1) =>
    if c = '"' then quotedBody d1 [] else .error .assertionError

/-! ## read_literal -/

/-- The `for c in data` count scan of `read_literal`, structurally
recursive on the remaining character count (at fuel 0 the cursor is
exhausted, which ends the `for` loop just like the `none` branch):
collect characters until `}` (consumed) or the end of the string. -/
def scanCountAux : Nat → Iter → List Char → List Char × Iter
  | 0, d, acc => (acc, d)
  | fuel + 1, d, acc =>
    match d.next with
    | none => (acc, d)
    | some (c, d1) =>
      if c = '}' then (acc, d1) else scanCountAux fuel d1 (acc ++ [c])

/-- The `read_literal` count scan at its full fuel. -/
def scanCount (d : Iter) (acc : List Char) : List Char × Iter :=
  scanCountAux (d.string.length - d.index) d acc

/-- Python `int()` on the scanned count token, modelled on the
non-negative decimal numerals the literal grammar uses: a non-empty
all-digit token parses to its value, anything else raises `ValueError`
(mapped to the `Non-integer token` `ParseError` by the caller). -/
def pyIntDigits (s : List Char) : Option Nat :=
  if s ≠ [] ∧ s.all Char.isDigit then
    some (s.foldl (fun n c => n * 10 + (c.toNat - 48)) 0)
  else none

/-- `read_literal`: `{` count `}` CRLF then exactly `count` raw bytes;
shorter input is the fatal `Unexpected end of literal string` error.  The
CRLF check mirrors the short-circuit of
`data.ahead and data.next() == CR and data.ahead and data.next() == LF`. -/
def read_literal (d : Iter) : Except PyError (List Char × Iter) :=
  match d.next with
  | none => .error .stopIteration
  | some (c, d0) =>
    if c = '{' then
      let (cnt, d1) := scanCount d0 []
      match d1.next with
      | none => .error (.parseError "Syntax error in literal string" d1.string d1.index)
      | some (c1, d2) =>
        if c1 = '\r' then
          match d2.next with
          | none => .error (.parseError "Syntax error in literal string" d2.string d2.index)
          | some (c2, d3) =>
            if c2 = '\n' then
              match pyIntDigits cnt with
              | none =>
                .error (.parseError "Non-integer token for length of literal string"
                  d3.string d3.index)
              | some n =>
                let (result, d4) := d3.read n
                if result.length < n then
                  .error (.parseError "Unexpected end of literal string" d4.string d4.index)
                else .ok (result, d4)
            else .error (.parseError "Syntax error in literal string" d3.string d3.index)
        else .error (.parseError "Syntax error in literal string" d2.string d2.index)
    else .error .assertionError

/-! ## read_atom / read_flag / read_list / parse_recursive / parse -/

/-- Membership in `ATOM_CHARS`: the characters `chr(32)`..`chr(255)`
minus the raw set `(){%*"\ ]`. -/
def isAtomChar (c : Char) : Bool :=
  decide (32 ≤ c.toNat) && decide (c.toNat ≤ 255) &&
    !(['(', ')', '{', '%', '*', '"', '\\', ' ', ']'].contains c)

/-- The `while data.ahead in ATOM_CHARS` scan of `read_atom`,
structurally recursive on the remaining character count (at fuel 0 the
cursor is exhausted, which ends the `while` just like the `none`
branch).  Returns the collected characters, the cursor, and whether the
loop ended with the `break` on `[` (`true`, the `[` consumed) or by the
`while`-`else` branch (`false`). -/
def scanAtomAux : Nat → Iter → List Char → List Char × Iter × Bool
  | 0, d, acc => (acc, d, false)
  | fuel + 1, d, acc =>
    match d.next with
    | none => (acc, d, false)
    | some (c, d1) =>
      if isAtomChar c then
        if c = '[' then (acc, d1, true) else scanAtomAux fuel d1 (acc ++ [c])
      else (acc, d, false)

/-- The `read_atom` character scan at its full fuel. -/
def scanAtom (d : Iter) (acc : List Char) : List Char × Iter × Bool :=
  scanAtomAux (d.string.length - d.index) d acc

mutual

/-- `read_atom`: a maximal run of atom characters yields an `Atom`
unless it was cut short by `[`, in which case the
`AttributeSpec` grammar (optional section atom, optional parenthesized
header list, `]`, optional `<range>` atom) follows. -/
def read_atom (fuel : Nat) (d : Iter) : Except PyError (Token × Iter) :=
  match fuel with
  | 0 => .error .outOfFuel
  | fuel + 1 =>
    if (d.ahead.map isAtomChar).getD false then
      let (result, d1, broke) := scanAtom d []
      if broke then
        match
          (if d1.ahead = some ']' then .ok (Token.str "", d1) else read_atom fuel d1 :
            Except PyError (Token × Iter)) with
        | .error e => .error e
        | .ok (msgtext, d2) =>
          match
            (if d2.ahead = some ' ' then
               match d2.next with
               | some (_, d2a) =>
                 match read_list fuel d2a with
                 | .ok (hl, d3) => .ok (some hl, d3)
                 | .error e => .error e
               | none => .error .stopIteration
             else .ok (none, d2) :
              Except PyError (Option (List Token) × Iter)) with
          | .error e => .error e
          | .ok (header_list, d3) =>
            if d3.ahead ≠ some ']' then
              .error (.parseError "Unexpected end of header list" d3.string d3.index)
            else
              match d3.next with
              | none => .error .stopIteration
              | some (_, d4) =>
                match
                  (if d4.ahead = some '<' then
                     match read_atom fuel d4 with
                     | .ok (r, d5) => .ok (some r, d5)
                     | .error e => .error e
                   else .ok (none, d4) :
                    Except PyError (Option Token × Iter)) with
                | .error e => .error e
                | .ok (range, d5) =>
                  .ok (.attr (String.mk result) msgtext header_list range, d5)
      else .ok (.atom (String.mk result), d1)
    else .error .assertionError

/-- `read_flag`: `assert data.next() == BACKSLASH` then
`Flag(read_atom(data).value)`; a non-`Atom` result has no `.value`
attribute and raises `AttributeError`. -/
def read_flag (fuel : Nat) (d : Iter) : Except PyError (Token × Iter) :=
  match fuel with
  | 0 => .error .outOfFuel
  | fuel + 1 =>
    match d.next with
    | none => .error .stopIteration
    | some (c, d1) =>
      if c = '\\' then
        match read_atom fuel d1 with
        | .error e => .error e
        | .ok (.atom v, d2) => .ok (.flag v, d2)
        | .ok (_, _) => .error .attributeError
      else .error .assertionError

/-- `read_list`: `assert data.next() == '('`, the recursive
`parse_recursive` body, then the closing `)` (missing or wrong character
is `Unexpected end of list`). -/
def read_list (fuel : Nat) (d : Iter) : Except PyError (List Token × Iter) :=
  match fuel with
  | 0 => .error .outOfFuel
  | fuel + 1 =>
    match d.next with
    | none => .error .stopIteration
    | some (c, d1) =>
      if c = '(' then
        match parse_recursive fuel d1 with
        | .error e => .error e
        | .ok (ts, d2) =>
          match d2.next with
          | none => .error (.parseError "Unexpected end of list" d2.string d2.index)
          | some (c2, d3) =>
            if c2 = ')' then .ok (ts, d3)
            else .error (.parseError "Unexpected end of list" d3.string d3.index)
      else .error .assertionError

/-- `parse_recursive`: the dispatch loop.  Each iteration optionally
yields one token (quoted string, literal, list, flag or atom — any other
character yields nothing), then consumes a single space and loops, stops
before `)` or at the end, continues directly on `(`, and raises a
`Syntax error` on anything else. -/
def parse_recursive (fuel : Nat) (d : Iter) : Except PyError (List Token × Iter) :=
  match fuel with
  | 0 => .error .outOfFuel
  | fuel + 1 =>
    match
      (match d.ahead with
       | some '"' =>
         match read_quoted d with
         | .ok (s, d1) => .ok ([Token.str (String.mk s)], d1)
         | .error e => .error e
       | some '{' =>
         match read_literal d with
         | .ok (s, d1) => .ok ([Token.str (String.mk s)], d1)
         | .error e => .error e
       | some '(' =>
         match read_list fuel d with
         | .ok (ts, d1) => .ok ([Token.list ts], d1)
         | .error e => .error e
       | some '\\' =>
         match read_flag fuel d with
         | .ok (t, d1) => .ok ([t], d1)
         | .error e => .error e
       | some c =>
         if isAtomChar c then
           match read_atom fuel d with
           | .ok (t, d1) => .ok ([t], d1)
           | .error e => .error e
         else .ok ([], d)
       | none => .ok ([], d) :
        Except PyError (List Token × Iter)) with
    | .error e => .error e
    | .ok (yielded, d1) =>
      match d1.ahead with
      | some ' ' =>
        match d1.next with
        | some (_, d2) =>
          match parse_recursive fuel d2 with
          | .ok (ts, d3) => .ok (yielded ++ ts, d3)
          | .error e => .error e
        | none => .error .stopIteration
      | some ')' => .ok (yielded, d1)
      | none => .ok (yielded, d1)
      | some '(' =>
        match parse_recursive fuel d1 with
        | .ok (ts, d3) => .ok (yielded ++ ts, d3)
        | .error e => .error e
      | some c =>
        .error (.parseError ("Syntax error " ++ String.mk [c]) d1.string d1.index)

end

/-- `parse`: run `parse_recursive` from the start of the string (with
fuel ample for any input of this length) and require the cursor to be
exhausted, else `Inconsistent nesting of lists`. -/
def parse (s : List Char) : Except PyError (List Token) :=
  let d : Iter := ⟨s, 0⟩
  match parse_recursive (2 * s.length + 2) d with
  | .error e => .error e
  | .ok (ts, d1) =>
    if d1.ahead.isSome then
      .error (.parseError "Inconsistent nesting of lists" d1.string d1.index)
    else .ok ts

/-- `MessageBase.labels`: `list(parse(self.labels_raw))`, with a
`ParseError` caught and turned into `None`; other exceptions would
propagate. -/
def labels (labels_raw : List Char) : Except PyError (Option (List Token)) :=
  match parse labels_raw with
  | .ok ts => .ok (some ts)
  | .error (.parseError _ _ _) => .ok none
  | .error e => .error e

/-! ## Pagination (mailbox.py: page_from_list) -/

/-- `page_from_list(a_list, limit, offset)` from `pygmail/mailbox.py`.
`limit` is either an int or python `False` ("no limit"), modelled as
`Option Nat` with `none` for `False`; python slices `a_list[i:]` and
`a_list[i:j]` are `drop` and `take`/`drop`. -/
def page_from_list (a_list : List α) (limit : Option Nat) (offset : Nat) : List α :=
  let count := a_list.length
  if count ≤ offset then []
  else
    match limit with
    | none => a_list.drop offset
    | some l =>
      let last_req_item := offset + l
      let last_elm_index := if count ≤ last_req_item then count else last_req_item
      (a_list.take last_elm_index).drop offset

/-! ## IMAP responses and the error taxonomy (errors.py) -/

/-- The `(typ, data)` pair of an imaplib response: the status word
(`"OK"`, `"NO"`, ...) and the data list. -/
structure ImapResp where
  typ : String
  data : List String
deriving Repr, DecidableEq

/-- `errors.IMAPError(desc=data, type=typ)`. -/
structure IMAPError where
  desc : List String
  typ : String
deriving Repr, DecidableEq

/-- `errors.check_for_response_error` on a `(typ, data)` response with
the default `require_ok=True`: any status other than `"OK"` is an
`IMAPError`. -/
def check_for_response_error (r : ImapResp) : Option IMAPError :=
  if r.typ ≠ "OK" then some ⟨r.data, r.typ⟩ else none

/-- Modelled from the spec: `register_callback_if_error` is imported by
`pygmail/mailbox.py` from `pygmail.errors` but is absent from this
snapshot of `errors.py`.  Per the propagation policy (spec section 7:
every non-success response is surfaced to the caller as an error value,
short-circuiting the remaining steps) it reports the error of a non-OK
response — delivered to the pending callback — and nothing on success. -/
def register_callback_if_error (r : ImapResp) : Option IMAPError :=
  check_for_response_error r

/-- The value an operation's callback finally receives: a boolean, an
`IMAPError`, the `IMAPClosedError` from `check_imap_state`, an uncaught
python exception, or the out-of-fuel artifact of the embedding (never
reached from the entry points below). -/
inductive PyResult where
  | val (b : Bool)
  | err (e : IMAPError)
  | closed
  | exn
  | fuelOut
deriving Repr, DecidableEq

/-- The error-like values that `check_imap_response` short-circuits to
the callback instead of running the next step. -/
def PyResult.isTerminal : PyResult → Bool
  | .val _ => false
  | _ => true

/-! ## Small python string helpers -/

/-- Python `str.split()` whitespace. -/
def pyIsSpace (c : Char) : Bool :=
  c = ' ' || c = '\t' || c = '\n' || c = '\r' || c = '\x0b' || c = '\x0c'

/-- Python `str.split()` with no argument: split on whitespace runs,
dropping empty fields.  `acc` holds the current field reversed. -/
def pySplitWsL : List Char → List Char → List String
  | [], acc => if acc = [] then [] else [String.mk acc.reverse]
  | c :: cs, acc =>
    if pyIsSpace c then
      if acc = [] then pySplitWsL cs []
      else String.mk acc.reverse :: pySplitWsL cs []
    else pySplitWsL cs (c :: acc)

/-- Python `str.split()` with no argument. -/
def pySplitWs (s : String) : List String := pySplitWsL s.data []

/-- Python `s[:-1]`: all characters but the last (python slices count
code points, and `''[:-1]` is `''`). -/
def pyDropLast (s : String) : String := String.mk s.data.dropLast

/-- `data[0].split()[-1]` of the delete-protocol trash search: the last
whitespace token of the first data element; `none` models the
`IndexError` (empty data list, or no tokens) that triggers the retry. -/
def lastUidToken (data : List String) : Option String :=
  match data with
  | [] => none
  | d :: _ => (pySplitWs d).getLast?

/-- `Mailbox.COUNT_PATTERN.sub("", str(data))`: the digit characters of
the python repr of the data list, which are exactly the digit characters
of the elements in order. -/
def countDigits (data : List String) : List Char :=
  (data.foldl (fun acc s => acc ++ s.data) []).filter Char.isDigit

/-! ## The mailbox session cache (mailbox.py: Mailbox.count / Mailbox.select) -/

/-- A mailbox: `id` stands for the python object identity that the
`self is self.account.last_viewed_mailbox` check compares, `name` is the
IMAP mailbox name. -/
structure Mailbox where
  id : Nat
  name : String
deriving Repr, DecidableEq

/-- The per-session state: `account.last_viewed_mailbox` (by object
identity). -/
structure AccountState where
  lastViewed : Option Nat
deriving Repr, DecidableEq

/-- The wire commands and scheduler events an operation issues, in
order. -/
inductive Ev where
  | selMailbox (name : String)
  | copy (uid trash : String)
  | selectCmd (name : String)
  | search (query : String)
  | wait (secs : Nat)
  | store (uid op value : String)
  | expunge
  | append (mailbox flags : String) (date : Nat) (body : String)
  | storeLabels (uid labels : String)
deriving Repr, DecidableEq

/-- What `Mailbox.count` delivers to its callback: the parsed message
count, the error registered by `register_callback_if_error`, or the
uncaught `ValueError` of `int("")` when the response data holds no
digits. -/
inductive CountResult where
  | num (n : Nat)
  | err (e : IMAPError)
  | exn
deriving Repr, DecidableEq

/-- Python `int()` on the digit string `COUNT_PATTERN` leaves:
`ValueError` (`none`) on the empty string. -/
def intOfDigits (s : List Char) : Option Nat :=
  if s = [] then none
  else some (s.foldl (fun n c => n * 10 + (c.toNat - 48)) 0)

/-- `Mailbox.count`: issue `SELECT name`; on a non-OK response register
the error with the callback; on success set
`account.last_viewed_mailbox` and deliver
`int(COUNT_PATTERN.sub("", str(data)))`. -/
def Mailbox.count (m : Mailbox) (st : AccountState) (selectResp : ImapResp) :
    List Ev × AccountState × CountResult :=
  let evs := [Ev.selectCmd m.name]
  match register_callback_if_error selectResp with
  | some e => (evs, st, .err e)
  | none =>
    let st := { st with lastViewed := some m.id }
    match intOfDigits (countDigits selectResp.data) with
    | some n => (evs, st, .num n)
    | none => (evs, st, .exn)

/-- `Mailbox.select`: no-op delivering `False` when this mailbox is the
cached `last_viewed_mailbox`; otherwise run `count` (which issues the
SELECT) and, whatever value it delivers, set the cache and deliver
`True` — `_on_count_complete` ignores its argument. -/
def Mailbox.select (m : Mailbox) (st : AccountState) (selectResp : ImapResp) :
    List Ev × AccountState × PyResult :=
  if st.lastViewed = some m.id then ([], st, .val false)
  else
    let (evs, st1, r) := m.count st selectResp
    match r with
    | .exn => (evs, st1, .exn)
    | _ => (evs, { st1 with lastViewed := some m.id }, .val true)

/-! ## The message lifecycle orchestrator (message.py: delete / save) -/

/-- The fields of a `MessageBase` that `delete` and `save` read:
`uid`, `message_id`, `flags` (`ParseFlags`), `internal_date`
(`Internaldate2tuple`, `none` when absent), `labels_raw` (the raw
`X-GM-LABELS` substring), the wire body `raw.as_string()` and the owning
mailbox name. -/
structure Msg where
  uid : String
  message_id : String
  flags : List String
  internal_date : Option Nat
  labels_raw : String
  raw_body : String
  mailbox_name : String
deriving Repr, DecidableEq

/-- The responses one run of `MessageBase.delete` can observe:
`sessionOpen` is the `check_imap_state` condition (connection not in
LOGOUT), `selectOutcome` is what `self.mailbox.select` delivers,
`searchResp k` is the response of the `k`-th trash search (0-based), the
rest are the responses of the wire commands in protocol order. -/
structure DeleteEnv where
  sessionOpen : Bool
  selectOutcome : PyResult
  copyResp : ImapResp
  trashSelectResp : ImapResp
  searchResp : Nat → ImapResp
  storeResp : ImapResp
  expungeResp : ImapResp
  reselectResp : ImapResp

/-- The tail of the delete protocol once the trash search found a uid:
`STORE +FLAGS \Deleted` on it, `EXPUNGE`, reselect the original mailbox,
deliver `True`; each step aborts with the first non-OK response. -/
def deleteTail (msg : Msg) (env : DeleteEnv) (uid : String) (acc : List Ev) :
    List Ev × PyResult :=
  if ¬ env.sessionOpen then (acc, .closed) else
  let acc := acc ++ [.store uid "+FLAGS" "\\Deleted"]
  match check_for_response_error env.storeResp with
  | some e => (acc, .err e)
  | none =>
    if ¬ env.sessionOpen then (acc, .closed) else
    let acc := acc ++ [.expunge]
    match check_for_response_error env.expungeResp with
    | some e => (acc, .err e)
    | none =>
      if ¬ env.sessionOpen then (acc, .closed) else
      let acc := acc ++ [.selectCmd msg.mailbox_name]
      match check_for_response_error env.reselectResp with
      | some e => (acc, .err e)
      | none => (acc, .val true)

/-- The retry loop of `_on_search_for_message_complete`: search the trash
by `rfc822msgid`; a non-OK response aborts with that error; a found uid
goes to `deleteTail`; an empty result (`IndexError` on
`data[0].split()[-1]`) increments `num_tries` and either gives up with
`False` on the 5th try or waits 2 seconds and searches again.  The fuel
equals `5 - num_tries` at every call from `delete`, so the
`num_tries == 5` exit always fires first. -/
def deleteSearchLoop (msg : Msg) (env : DeleteEnv) (num_tries : Nat) (fuel : Nat)
    (acc : List Ev) : List Ev × PyResult :=
  match fuel with
  | 0 => (acc, .fuelOut)
  | fuel + 1 =>
    if ¬ env.sessionOpen then (acc, .closed) else
    let resp := env.searchResp num_tries
    let acc := acc ++ [.search ("rfc822msgid:" ++ msg.message_id)]
    match check_for_response_error resp with
    | some e => (acc, .err e)
    | none =>
      match lastUidToken resp.data with
      | some uid => deleteTail msg env uid acc
      | none =>
        let nt := num_tries + 1
        if nt = 5 then (acc, .val false)
        else deleteSearchLoop msg env nt fuel (acc ++ [.wait 2])

/-- `MessageBase.delete(trash_folder)`: select the owning mailbox, COPY
the message by uid into the trash, select the trash (`num_tries := 0`)
and run the bounded search-and-destroy loop.  Every step is gated by
`check_imap_state` / `check_imap_response`. -/
def delete (msg : Msg) (trash_folder : String) (env : DeleteEnv) :
    List Ev × PyResult :=
  let acc := [Ev.selMailbox msg.mailbox_name]
  if env.selectOutcome.isTerminal then (acc, env.selectOutcome) else
  if ¬ env.sessionOpen then (acc, .closed) else
  let acc := acc ++ [.copy msg.uid trash_folder]
  match check_for_response_error env.copyResp with
  | some e => (acc, .err e)
  | none =>
    if ¬ env.sessionOpen then (acc, .closed) else
    let acc := acc ++ [.selectCmd trash_folder]
    match check_for_response_error env.trashSelectResp with
    | some e => (acc, .err e)
    | none => deleteSearchLoop msg env 0 5 acc

/-- The flag argument of `save`'s APPEND:
`'(%s)' % ' '.join(self.flags) if self.flags else "()"`. -/
def flagsString (flags : List String) : String :=
  if flags ≠ [] then "(" ++ String.intercalate " " flags ++ ")" else "()"

/-- The label argument of `save`'s `STORE +X-GM-LABELS`:
`'(%s)' % (self.labels_raw or '')` — the raw substring is sent back
verbatim, re-wrapped in the list parentheses. -/
def labelsValue (labels_raw : String) : String := "(" ++ labels_raw ++ ")"

/-- `data[0].split()[2][:-1]` of `_on_append`: the third whitespace token
of the first data element, minus its final character; `none` models the
uncaught `IndexError`. -/
def extractAppendUid (data : List String) : Option String :=
  match data with
  | [] => none
  | d :: _ => ((pySplitWs d).get? 2).map pyDropLast

/-- The responses one run of `Message.save` observes beyond the embedded
delete: the reselect of the owning mailbox, the APPEND response, the
label STORE response, and `time.gmtime()` (`now`) used only when the
message has no internal date. -/
structure SaveEnv where
  del : DeleteEnv
  sessionOpen : Bool
  selectOutcome : PyResult
  appendResp : ImapResp
  labelStoreResp : ImapResp
  now : Nat

/-- `Message.save(trash_folder)` (with `safe_label=None`): run the full
delete protocol, reselect the owning mailbox, APPEND the wire body with
the original flags and internal date (falling back to `time.gmtime()`),
replace `self.uid` with the uid extracted from the APPEND response, then
STORE the raw label set onto the new uid and deliver `True`.  Any
error-like step value is delivered instead and aborts the rest; the
boolean `delete` outcome (`True` or the retry-exhaustion `False`) is not
inspected. -/
def save (msg : Msg) (trash_folder : String) (env : SaveEnv) :
    List Ev × PyResult × Msg :=
  let (acc, r) := delete msg trash_folder env.del
  if r.isTerminal then (acc, r, msg) else
  let acc := acc ++ [.selMailbox msg.mailbox_name]
  if env.selectOutcome.isTerminal then (acc, env.selectOutcome, msg) else
  if ¬ env.sessionOpen then (acc, .closed, msg) else
  let date := msg.internal_date.getD env.now
  let acc := acc ++ [.append msg.mailbox_name (flagsString msg.flags) date msg.raw_body]
  match check_for_response_error env.appendResp with
  | some e => (acc, .err e, msg)
  | none =>
    match extractAppendUid env.appendResp.data with
    | none => (acc, .exn, msg)
    | some newUid =>
      let msg1 := { msg with uid := newUid }
      if ¬ env.sessionOpen then (acc, .closed, msg1) else
      let acc := acc ++ [.storeLabels newUid (labelsValue msg1.labels_raw)]
      match check_for_response_error env.labelStoreResp with
      | some e => (acc, .err e, msg1)
      | none => (acc, .val true, msg1)

/-! ## Header decoding (message.py: MessageBase.get_header) -/

/-- The codec environment for the python `unicode(value, encoding, ...)`
built-in: which encodings `codecs.lookup` knows, the total
`errors='replace'` decode, and the strict decode (`none` =
`UnicodeDecodeError`). -/
structure Codec where
  known : String → Bool
  decodeReplace : String → String → String
  decodeStrict : String → String → Option String

/-- The decode loop of `get_header` over the `(value, encoding)` pairs
that `email.header.decode_header` produced: each value is decoded with
`unicode(value, encoding or 'ascii', errors='replace')`; an encoding
`codecs` does not know raises `LookupError` (`none`), to be caught by the
blanket `except` of `get_header`. -/
def decodeHeaderValues (codec : Codec) :
    List (String × Option String) → Option (List String)
  | [] => some []
  | (value, encoding) :: rest =>
    let header_encoding := encoding.getD "ascii"
    if codec.known header_encoding then
      (decodeHeaderValues codec rest).map (codec.decodeReplace header_encoding value :: ·)
    else none

/-- `MessageBase.get_header`, from the `decode_header` output onward: any
exception in the loop (in particular the `LookupError` of an unrecognized
declared encoding) yields the empty tuple, and a degenerate single-value
`u'None'` result (a missing header, since `decode_header(None)` is
`[('None', None)]`) is normalized to the empty tuple. -/
def get_header (codec : Codec) (raw_headers : List (String × Option String)) :
    List String :=
  match decodeHeaderValues codec raw_headers with
  | none => []
  | some header_values =>
    if header_values = ["None"] then [] else header_values

/-! ## MIME part normalization (message.py: utf8_encode_message_part) -/

/-- What `get_payload(decode=True)` returned: a byte string or an
already-Unicode payload. -/
inductive Payload where
  | bytes (s : String)
  | uni (s : String)
deriving Repr, DecidableEq

/-- The mutable state of one MIME part that
`utf8_encode_message_part` reads and writes: the decoded payload, the
declared charset (`get_content_charset() or get_charset()`, as a string —
`set_charset("utf-8")` makes this `"utf-8"`), and the `_normalized` /
`_orig_charset` cache attributes (absent = `none`). -/
structure MessagePart where
  payload : Payload
  charset : Option String
  normalized : Option String
  origCharset : Option String
deriving Repr, DecidableEq

/-- The value `utf8_encode_message_part` returns: the normalized text or
a captured `LookupError` / `UnicodeDecodeError` value. -/
inductive NormResult where
  | text (s : String)
  | lookupError (charset : String)
  | unicodeError (charset : String)
deriving Repr, DecidableEq

/-- Python `a or b` on optional strings (empty string falsy). -/
def strOr (a b : Option String) : Option String :=
  match a with
  | some s => if s = "" then b else some s
  | none => b

/-- `cs.split(" ")[0]`: the characters before the first space. -/
def firstSpaceToken (s : String) : String :=
  String.mk (s.data.takeWhile (· ≠ ' '))

/-- `message_part_charset(part, message)`: part charset, else message
charset, else `"ascii"`; a string charset is cut at its first space. -/
def message_part_charset (part_charset msg_charset : Option String) : String :=
  match strOr part_charset msg_charset with
  | none => "ascii"
  | some cs => if cs = "" then "ascii" else firstSpaceToken cs

/-- `a == b` as list prefix, for the python `in` substring test. -/
def startsWithL : List Char → List Char → Bool
  | [], _ => true
  | _ :: _, [] => false
  | a :: as, b :: bs => a == b && startsWithL as bs

/-- Substring occurrence on char lists. -/
def hasSubL (needle : List Char) : List Char → Bool
  | [] => startsWithL needle []
  | c :: cs => startsWithL needle (c :: cs) || hasSubL needle cs

/-- Python `needle in hay` on strings. -/
def pyIn (needle hay : String) : Bool := hasSubL needle.data hay.data

/-- `utf8_encode_message_part(message_part, message, default)`: return
the memoized `_normalized` text if present; return an already-Unicode
payload unchanged (recording `_orig_charset = "utf-8"`); otherwise
resolve the charset, record `_orig_charset` and `set_charset("utf-8")` on
first decode, decode along the three charset branches (capturing
`LookupError` / `UnicodeDecodeError` as values) and memoize the result.
The third component counts the `unicode(...)` charset-decode
invocations. -/
def utf8_encode_message_part (codec : Codec) (msg_charset : Option String)
    (defaultCS : String) (part : MessagePart) : NormResult × MessagePart × Nat :=
  match part.normalized with
  | some t => (.text t, part, 0)
  | none =>
    match part.payload with
    | .uni s => (.text s, { part with origCharset := some "utf-8" }, 0)
    | .bytes payload =>
      let section_charset := message_part_charset part.charset msg_charset
      let charset := if section_charset = "" then defaultCS else section_charset
      let part :=
        if part.origCharset.isNone then
          { part with origCharset := some charset, charset := some "utf-8" }
        else part
      if charset ≠ "" ∧ ¬ (pyIn "utf-8" charset) then
        if codec.known charset then
          let normalized := codec.decodeReplace charset payload
          (.text normalized, { part with normalized := some normalized }, 1)
        else (.lookupError charset, part, 1)
      else if charset = "utf-8" then
        match codec.decodeStrict "utf-8" payload with
        | some normalized =>
          (.text normalized, { part with normalized := some normalized }, 1)
        | none => (.unicodeError "utf-8", part, 1)
      else
        let normalized := codec.decodeReplace "ascii" payload
        (.text normalized, { part with normalized := some normalized }, 1)

/-! # Theorems -/

/-- C2: `page_from_list` returns `[]` when `offset ≥ N`; otherwise, with
an int limit, the elements at indices `offset` through
`min(offset + limit, N) - 1` (which is `(drop offset).take limit`), and
with the no-limit value `False` every element from `offset` on; including
the three spec examples. -/
theorem page_from_list_spec :
    (∀ (α : Type) (a_list : List α) (limit : Option Nat) (offset : Nat),
      a_list.length ≤ offset → page_from_list a_list limit offset = []) ∧
    (∀ (α : Type) (a_list : List α) (limit offset : Nat),
      page_from_list a_list (some limit) offset = (a_list.drop offset).take limit) ∧
    (∀ (α : Type) (a_list : List α) (offset : Nat),
      page_from_list a_list none offset = a_list.drop offset) ∧
    page_from_list [1, 2, 3, 4, 5, 6, 7, 8, 9, 10] (some 3) 8 = [9, 10] ∧
    page_from_list ([] : List Nat) (some 5) 0 = [] ∧
    page_from_list [1, 2, 3, 4, 5] (some 10) 2 = [3, 4, 5] := by
  refine ⟨?_, ?_, ?_, by decide, by decide, by decide⟩
  · intro α a_list limit offset h
    simp [page_from_list, h]
  · intro α a_list limit offset
    unfold page_from_list
    by_cases h : a_list.length ≤ offset
    · simp [h, (List.drop_eq_nil_iff).mpr h]
    · simp only [if_neg h]
      by_cases h2 : a_list.length ≤ offset + limit
      · rw [if_pos h2, List.take_length,
          List.take_of_length_le (by simp; omega)]
      · rw [if_neg h2, List.drop_take]
        congr 1
        omega
  · intro α a_list offset
    unfold page_from_list
    by_cases h : a_list.length ≤ offset
    · simp [h, (List.drop_eq_nil_iff).mpr h]
    · simp [h]

/-- C2 witness: the empty-page clause at a concrete input. -/
theorem page_from_list_spec_witness :
    page_from_list [1, 2] (some 5) 3 = ([] : List Nat) :=
  page_from_list_spec.1 Nat [1, 2] (some 5) 3 (by decide)

/-- C3: `parse` on `(FOO "bar" (\Deleted))` yields the single nested
list `[Atom FOO, "bar", [Flag Deleted]]` — the quoted string parses to a
plain string with the quotes stripped, the flag keeps only its name. -/
theorem parse_example :
    parse "(FOO \"bar\" (\\Deleted))".data =
      .ok [.list [.atom "FOO", .str "bar", .list [.flag "Deleted"]]] := rfl

theorem Iter.next_drop {d : Iter} {c : Char} {rest : List Char}
    (h : d.string.drop d.index = c :: rest) :
    d.next = some (c, ⟨d.string, d.index + 1⟩) := by
  unfold Iter.next
  have hg : d.string.get? d.index = some c := by
    rw [List.get?_eq_getElem?, ← List.head?_drop, h]
    rfl
  rw [hg]

theorem scanCountAux_digits (mid : List Char) :
    ∀ (fuel i : Nat) (post acc : List Char) (s : List Char),
      mid.length < fuel → (∀ c ∈ mid, c ≠ '}') →
      s.drop i = mid ++ '}' :: post →
      scanCountAux fuel ⟨s, i⟩ acc = (acc ++ mid, ⟨s, i + mid.length + 1⟩) := by
  induction mid with
  | nil =>
    intro fuel i post acc s hf _ hdrop
    match fuel, hf with
    | fuel + 1, _ =>
      rw [scanCountAux, Iter.next_drop (by simpa using hdrop)]
      simp
  | cons c cs ih =>
    intro fuel i post acc s hf hmid hdrop
    match fuel, hf with
    | fuel + 1, hf =>
      rw [scanCountAux, Iter.next_drop (by simpa using hdrop)]
      simp only [if_neg (hmid c (by simp))]
      have hdrop1 : s.drop (i + 1) = cs ++ '}' :: post := by
        rw [← List.tail_drop, hdrop]
        rfl
      rw [ih fuel (i + 1) post (acc ++ [c]) s (by simpa using hf)
        (fun x hx => hmid x (by simp [hx])) hdrop1]
      simp [List.append_assoc, List.length_cons, Prod.mk.injEq, Iter.mk.injEq,
        show i + 1 + cs.length + 1 = i + (cs.length + 1) + 1 from by omega]

/-- The digit characters of a decimal count are never `}` (so the count
scan of `read_literal` stops exactly at the closing brace). -/
theorem digits_ne_brace {ds : List Char} {n : Nat} (h : pyIntDigits ds = some n) :
    ∀ c ∈ ds, c ≠ '}' := by
  intro c hc
  unfold pyIntDigits at h
  split at h
  · rename_i hcond
    intro hbrace
    have := List.all_eq_true.mp hcond.2 c hc
    rw [hbrace] at this
    exact absurd this (by decide)
  · exact absurd h (by simp)

/-- C4: on input `{n}` CRLF followed by a remainder, `read_literal`
returns exactly the first `n` characters of the remainder when the
remainder holds at least `n` characters, and otherwise raises the
`Unexpected end of literal string` `ParseError` carrying the full input
and the offending index, rather than returning a truncated token.
`ds` is the decimal numeral of the count `n`. -/
theorem read_literal_spec (ds rest : List Char) (n : Nat)
    (h : pyIntDigits ds = some n) :
    (n ≤ rest.length →
      read_literal ⟨'{' :: ds ++ '}' :: '\r' :: '\n' :: rest, 0⟩ =
        .ok (rest.take n,
          ⟨'{' :: ds ++ '}' :: '\r' :: '\n' :: rest, ds.length + 4 + n⟩)) ∧
    (rest.length < n →
      read_literal ⟨'{' :: ds ++ '}' :: '\r' :: '\n' :: rest, 0⟩ =
        .error (.parseError "Unexpected end of literal string"
          ('{' :: ds ++ '}' :: '\r' :: '\n' :: rest) (ds.length + 4 + n))) := by
  set full := '{' :: ds ++ '}' :: '\r' :: '\n' :: rest with hfull
  have hlen : full.length = ds.length + 4 + rest.length := by
    simp [hfull]
    omega
  have hnext0 : Iter.next ⟨full, 0⟩ = some ('{', ⟨full, 1⟩) :=
    @Iter.next_drop ⟨full, 0⟩ '{' (ds ++ '}' :: '\r' :: '\n' :: rest) (by simp [hfull])
  have hscan : scanCount ⟨full, 1⟩ [] = (ds, ⟨full, 1 + ds.length + 1⟩) := by
    unfold scanCount
    exact scanCountAux_digits ds (full.length - 1) 1 ('\r' :: '\n' :: rest) [] full
      (by omega) (digits_ne_brace h) (by simp [hfull])
  have hdropA : full.drop (ds.length + 2) = '\r' :: '\n' :: rest := by
    have : full = ('{' :: (ds ++ ['}'])) ++ '\r' :: '\n' :: rest := by
      simp [hfull]
    rw [this]
    have hl : ('{' :: (ds ++ ['}'])).length = ds.length + 2 := by simp
    rw [← hl, List.drop_left]
  have hnextR : Iter.next ⟨full, ds.length + 2⟩ =
      some ('\r', ⟨full, ds.length + 2 + 1⟩) := Iter.next_drop hdropA
  have hdropB : full.drop (ds.length + 3) = '\n' :: rest := by
    rw [show ds.length + 3 = ds.length + 2 + 1 from rfl, ← List.tail_drop, hdropA]
    rfl
  have hnextN : Iter.next ⟨full, ds.length + 3⟩ =
      some ('\n', ⟨full, ds.length + 3 + 1⟩) := Iter.next_drop hdropB
  have hdropC : full.drop (ds.length + 4) = rest := by
    rw [show ds.length + 4 = ds.length + 3 + 1 from rfl, ← List.tail_drop, hdropB]
    rfl
  have hbody : read_literal ⟨full, 0⟩ =
      (if (rest.take n).length < n then
         .error (.parseError "Unexpected end of literal string" full (ds.length + 4 + n))
       else .ok (rest.take n, ⟨full, ds.length + 4 + n⟩)) := by
    rw [read_literal, hnext0]
    simp only [reduceIte, hscan]
    rw [show (1 : Nat) + ds.length + 1 = ds.length + 2 from by omega, hnextR]
    simp only [reduceIte]
    rw [hnextN]
    simp only [reduceIte, h, Iter.read, hdropC]
  constructor
  · intro hge
    rw [hbody, if_neg (by simp [List.length_take]; omega)]
  · intro hlt
    rw [hbody, if_pos (by simp [List.length_take]; omega)]

/-- C4 witness: the theorem's error branch at the concrete input
`{4}` CRLF `as`, whose remainder is shorter than the count 4. -/
theorem read_literal_spec_witness :
    read_literal ⟨'{' :: ['4'] ++ '}' :: '\r' :: '\n' :: ['a', 's'], 0⟩ =
      .error (.parseError "Unexpected end of literal string"
        ('{' :: ['4'] ++ '}' :: '\r' :: '\n' :: ['a', 's']) 9) :=
  (read_literal_spec ['4'] ['a', 's'] 4 (by decide)).2 (by decide)

/-- C1: on an invocation whose session is live, whose initial select,
COPY and trash SELECT succeed, and whose every trash SEARCH returns an
OK response with an empty result, `delete` performs exactly 5 search
attempts, schedules each of the 4 retries after the fixed 2-second
delay, and delivers `False` to the caller — no error object and no
exception. -/
theorem delete_retry_exhaustion (msg : Msg) (trash : String) (env : DeleteEnv)
    (hopen : env.sessionOpen = true)
    (hsel : env.selectOutcome.isTerminal = false)
    (hcopy : env.copyResp.typ = "OK")
    (htrash : env.trashSelectResp.typ = "OK")
    (hsearch : ∀ k, (env.searchResp k).typ = "OK")
    (hempty : ∀ k, lastUidToken (env.searchResp k).data = none) :
    delete msg trash env =
      ([.selMailbox msg.mailbox_name, .copy msg.uid trash, .selectCmd trash,
        .search ("rfc822msgid:" ++ msg.message_id), .wait 2,
        .search ("rfc822msgid:" ++ msg.message_id), .wait 2,
        .search ("rfc822msgid:" ++ msg.message_id), .wait 2,
        .search ("rfc822msgid:" ++ msg.message_id), .wait 2,
        .search ("rfc822msgid:" ++ msg.message_id)], .val false) := by
  simp [delete, deleteSearchLoop, check_for_response_error, hopen, hsel, hcopy,
    htrash, hsearch 0, hsearch 1, hsearch 2, hsearch 3, hsearch 4,
    hempty 0, hempty 1, hempty 2, hempty 3, hempty 4]

/-- C1 witness: the theorem applied to a concrete environment whose
searches all return OK with empty data. -/
theorem delete_retry_exhaustion_witness :
    delete ⟨"42", "mid", [], none, "", "", "INBOX"⟩ "T"
      ⟨true, .val true, ⟨"OK", []⟩, ⟨"OK", []⟩, fun _ => ⟨"OK", [""]⟩,
        ⟨"OK", []⟩, ⟨"OK", []⟩, ⟨"OK", []⟩⟩ =
      ([.selMailbox "INBOX", .copy "42" "T", .selectCmd "T",
        .search ("rfc822msgid:" ++ "mid"), .wait 2,
        .search ("rfc822msgid:" ++ "mid"), .wait 2,
        .search ("rfc822msgid:" ++ "mid"), .wait 2,
        .search ("rfc822msgid:" ++ "mid"), .wait 2,
        .search ("rfc822msgid:" ++ "mid")], .val false) :=
  delete_retry_exhaustion _ _ _ rfl rfl rfl rfl (fun _ => rfl) (fun _ => rfl)

theorem PyResult.isTerminal_false {r : PyResult} (h : r.isTerminal = false) :
    ∃ b, r = .val b := by
  cases r <;> simp [PyResult.isTerminal] at h ⊢

/-- The success path of `save`, shared by the frame-effect and the
label-round-trip theorems: with a non-error delete outcome, a non-error
reselect, a live session, an OK APPEND response whose data yields a uid
token, an OK label STORE and a present internal date, `save` appends the
original body with the original flags and internal date, replaces the
message uid with the extracted one, stores the raw labels onto it and
delivers `True`. -/
theorem save_success_eq (msg : Msg) (trash : String) (env : SaveEnv)
    (d0 u : String) (idate : Nat)
    (h1 : (delete msg trash env.del).2.isTerminal = false)
    (h2 : env.selectOutcome.isTerminal = false)
    (h3 : env.sessionOpen = true)
    (h4 : env.appendResp.typ = "OK")
    (h5 : env.appendResp.data = [d0])
    (h6 : (pySplitWs d0)[2]? = some u)
    (h7 : env.labelStoreResp.typ = "OK")
    (h8 : msg.internal_date = some idate) :
    save msg trash env =
      ((delete msg trash env.del).1 ++
        [.selMailbox msg.mailbox_name,
         .append msg.mailbox_name (flagsString msg.flags) idate msg.raw_body,
         .storeLabels (pyDropLast u) (labelsValue msg.labels_raw)],
       .val true, { msg with uid := pyDropLast u }) := by
  rcases hdel : delete msg trash env.del with ⟨dev, dres⟩
  rw [hdel] at h1
  have h1' : dres.isTerminal = false := h1
  obtain ⟨b, rfl⟩ := PyResult.isTerminal_false h1'
  obtain ⟨b2, hb2⟩ := PyResult.isTerminal_false h2
  simp only [save, hdel]
  simp [hb2, h3, check_for_response_error, h4, h5, extractAppendUid,
    List.get?_eq_getElem?, h6, h7, h8, PyResult.isTerminal]

/-- C5: the APPEND issued by a succeeding `save` carries the message's
original flag set and original internal date unchanged, the message uid
is replaced by the uid extracted from the APPEND response, and the label
STORE then applies the original raw label set to that new uid; and at
every step the first non-success response aborts the remaining steps
(no APPEND after a delete error, no label STORE after an APPEND error,
uid untouched) and is delivered as the operation's result. -/
theorem save_spec (msg : Msg) (trash : String) (env : SaveEnv) :
    (∀ d0 u idate,
      (delete msg trash env.del).2.isTerminal = false →
      env.selectOutcome.isTerminal = false →
      env.sessionOpen = true →
      env.appendResp.typ = "OK" →
      env.appendResp.data = [d0] →
      (pySplitWs d0)[2]? = some u →
      env.labelStoreResp.typ = "OK" →
      msg.internal_date = some idate →
      save msg trash env =
        ((delete msg trash env.del).1 ++
          [.selMailbox msg.mailbox_name,
           .append msg.mailbox_name (flagsString msg.flags) idate msg.raw_body,
           .storeLabels (pyDropLast u) (labelsValue msg.labels_raw)],
         .val true, { msg with uid := pyDropLast u })) ∧
    (∀ e, (delete msg trash env.del).2 = .err e →
      save msg trash env = ((delete msg trash env.del).1, .err e, msg)) ∧
    ((delete msg trash env.del).2.isTerminal = false →
      env.selectOutcome.isTerminal = false →
      env.sessionOpen = true →
      env.appendResp.typ ≠ "OK" →
      save msg trash env =
        ((delete msg trash env.del).1 ++
          [.selMailbox msg.mailbox_name,
           .append msg.mailbox_name (flagsString msg.flags)
             (msg.internal_date.getD env.now) msg.raw_body],
         .err ⟨env.appendResp.data, env.appendResp.typ⟩, msg)) ∧
    (∀ d0 u,
      (delete msg trash env.del).2.isTerminal = false →
      env.selectOutcome.isTerminal = false →
      env.sessionOpen = true →
      env.appendResp.typ = "OK" →
      env.appendResp.data = [d0] →
      (pySplitWs d0)[2]? = some u →
      env.labelStoreResp.typ ≠ "OK" →
      (save msg trash env).2.1 =
        .err ⟨env.labelStoreResp.data, env.labelStoreResp.typ⟩) := by
  refine ⟨?_, ?_, ?_, ?_⟩
  · intro d0 u idate h1 h2 h3 h4 h5 h6 h7 h8
    exact save_success_eq msg trash env d0 u idate h1 h2 h3 h4 h5 h6 h7 h8
  · intro e he
    rcases hdel : delete msg trash env.del with ⟨dev, dres⟩
    rw [hdel] at he
    have he' : dres = .err e := he
    subst he'
    simp only [save, hdel]
    simp [PyResult.isTerminal]
  · intro h1 h2 h3 h4
    rcases hdel : delete msg trash env.del with ⟨dev, dres⟩
    rw [hdel] at h1
    have h1' : dres.isTerminal = false := h1
    obtain ⟨b, rfl⟩ := PyResult.isTerminal_false h1'
    obtain ⟨b2, hb2⟩ := PyResult.isTerminal_false h2
    simp only [save, hdel]
    simp [hb2, h3, check_for_response_error, h4, PyResult.isTerminal]
  · intro d0 u h1 h2 h3 h4 h5 h6 h7
    rcases hdel : delete msg trash env.del with ⟨dev, dres⟩
    rw [hdel] at h1
    have h1' : dres.isTerminal = false := h1
    obtain ⟨b, rfl⟩ := PyResult.isTerminal_false h1'
    obtain ⟨b2, hb2⟩ := PyResult.isTerminal_false h2
    simp only [save, hdel]
    simp [hb2, h3, check_for_response_error, h4, h5, extractAppendUid,
      List.get?_eq_getElem?, h6, h7, PyResult.isTerminal]

/-- A concrete message for the save-path witnesses. -/
def msgW : Msg := ⟨"42", "mid", ["\\Seen"], some 77, "L", "B", "INBOX"⟩

/-- A concrete delete environment whose first trash search finds uid 9. -/
def delEnvW : DeleteEnv :=
  ⟨true, .val true, ⟨"OK", []⟩, ⟨"OK", []⟩,
    fun _ => ⟨"OK", ["9"]⟩, ⟨"OK", []⟩, ⟨"OK", []⟩, ⟨"OK", []⟩⟩

/-- A concrete save environment whose APPEND assigns uid 77. -/
def saveEnvW : SaveEnv :=
  ⟨delEnvW, true, .val true, ⟨"OK", ["[APPENDUID 5 77] done"]⟩, ⟨"OK", []⟩, 123⟩

/-- C5 witness: the success clause at a concrete environment. -/
theorem save_spec_witness :
    save msgW "T" saveEnvW =
      ((delete msgW "T" delEnvW).1 ++
        [.selMailbox "INBOX",
         .append "INBOX" (flagsString ["\\Seen"]) 77 "B",
         .storeLabels (pyDropLast "77]") (labelsValue "L")],
       .val true, { msgW with uid := pyDropLast "77]" }) :=
  (save_spec msgW "T" saveEnvW).1 "[APPENDUID 5 77] done" "77]" 77
    rfl rfl rfl rfl rfl rfl rfl rfl

/-- C7: the raw label substring is decoded through the IMAP grammar
parser, which separates the space-separated tokens and collapses each
doubled backslash escape once — the quoted raw token with a doubled
backslash decodes to a single backslash — and the label STORE a
succeeding `save` issues on write-back carries the original raw label
substring verbatim (re-wrapped in the list parentheses), for every
message. -/
theorem labels_roundtrip :
    labels "\"\\\\Important\" custom".data =
      .ok (some [.str "\\Important", .atom "custom"]) ∧
    (∀ (msg : Msg) (trash : String) (env : SaveEnv) (d0 u : String) (idate : Nat),
      (delete msg trash env.del).2.isTerminal = false →
      env.selectOutcome.isTerminal = false →
      env.sessionOpen = true →
      env.appendResp.typ = "OK" →
      env.appendResp.data = [d0] →
      (pySplitWs d0)[2]? = some u →
      env.labelStoreResp.typ = "OK" →
      msg.internal_date = some idate →
      Ev.storeLabels (pyDropLast u) ("(" ++ msg.labels_raw ++ ")") ∈
        (save msg trash env).1) := by
  constructor
  · rfl
  · intro msg trash env d0 u idate h1 h2 h3 h4 h5 h6 h7 h8
    rw [save_success_eq msg trash env d0 u idate h1 h2 h3 h4 h5 h6 h7 h8]
    simp [labelsValue]

/-- C7 witness: the write-back clause at a concrete environment. -/
theorem labels_roundtrip_witness :
    Ev.storeLabels (pyDropLast "77]") ("(" ++ "L" ++ ")") ∈ (save msgW "T" saveEnvW).1 :=
  labels_roundtrip.2 msgW "T" saveEnvW "[APPENDUID 5 77] done" "77]" 77
    rfl rfl rfl rfl rfl rfl rfl rfl

/-- C8: `select` is a no-op delivering `False` and issuing no SELECT
when the mailbox is the session's cached last-selected one; otherwise it
issues exactly one SELECT and, on a successful response, caches the
mailbox and delivers `True`, the underlying `count` step resolving the
mailbox's message count from the digits of the response data. -/
theorem select_spec (m : Mailbox) (st : AccountState) (resp : ImapResp) :
    (st.lastViewed = some m.id →
      Mailbox.select m st resp = ([], st, .val false)) ∧
    (st.lastViewed ≠ some m.id → resp.typ = "OK" →
      ∀ n, intOfDigits (countDigits resp.data) = some n →
        Mailbox.select m st resp = ([.selectCmd m.name], ⟨some m.id⟩, .val true) ∧
        (Mailbox.count m st resp).2.2 = .num n) := by
  constructor
  · intro h
    simp [Mailbox.select, h]
  · intro h hok n hn
    constructor
    · simp [Mailbox.select, Mailbox.count, h, hok, hn,
        register_callback_if_error, check_for_response_error]
    · simp [Mailbox.count, hok, hn, register_callback_if_error,
        check_for_response_error]

/-- C8 witness: a cache miss with an OK SELECT response counting 12
messages. -/
theorem select_spec_witness :
    Mailbox.select ⟨7, "INBOX"⟩ ⟨some 3⟩ ⟨"OK", ["12"]⟩ =
      ([.selectCmd "INBOX"], ⟨some 7⟩, .val true) ∧
    (Mailbox.count ⟨7, "INBOX"⟩ ⟨some 3⟩ ⟨"OK", ["12"]⟩).2.2 = .num 12 :=
  (select_spec ⟨7, "INBOX"⟩ ⟨some 3⟩ ⟨"OK", ["12"]⟩).2 (by decide) rfl 12 rfl

theorem decodeHeaderValues_all_known (codec : Codec)
    (pairs : List (String × Option String))
    (h : ∀ p ∈ pairs, codec.known (p.2.getD "ascii") = true) :
    decodeHeaderValues codec pairs =
      some (pairs.map fun p => codec.decodeReplace (p.2.getD "ascii") p.1) := by
  induction pairs with
  | nil => rfl
  | cons p ps ih =>
    rcases p with ⟨v, e⟩
    simp [decodeHeaderValues, h ⟨v, e⟩ (by simp),
      ih fun q hq => h q (by simp [hq])]

theorem decodeHeaderValues_unknown (codec : Codec)
    (pairs : List (String × Option String))
    (h : ∃ p ∈ pairs, codec.known (p.2.getD "ascii") = false) :
    decodeHeaderValues codec pairs = none := by
  induction pairs with
  | nil => simp at h
  | cons p ps ih =>
    rcases p with ⟨v, e⟩
    rcases h with ⟨q, hq, hk⟩
    rcases List.mem_cons.mp hq with hq | hq
    · subst hq
      simp [decodeHeaderValues, hk]
    · by_cases hkv : codec.known (e.getD "ascii")
      · simp [decodeHeaderValues, hkv, ih ⟨q, hq, hk⟩]
      · simp [decodeHeaderValues, hkv]

/-- C9 counterexample: with a codec that knows only ascii and utf-8 and
decodes by identity, a header word whose declared encoding `bogus` is
unrecognized yields the empty tuple — not the ASCII-with-replacement
decoding of the word that the claim predicts (the `LookupError` is
swallowed by the blanket handler, aborting the whole accessor). -/
theorem get_header_unknown_encoding_counterexample :
    get_header ⟨fun e => e == "ascii" || e == "utf-8", fun _ v => v, fun _ v => some v⟩
        [("abc", some "bogus")] = [] ∧
    get_header ⟨fun e => e == "ascii" || e == "utf-8", fun _ v => v, fun _ v => some v⟩
        [("abc", some "bogus")] ≠
      [(⟨fun e => e == "ascii" || e == "utf-8", fun _ v => v, fun _ v => some v⟩ :
          Codec).decodeReplace "ascii" "abc"] := by
  exact ⟨rfl, by decide⟩

/-- C9 (amended): `get_header` decodes each word with its declared
encoding, falling back to ASCII with replacement semantics only when no
encoding is declared; an unrecognized declared encoding anywhere makes
the whole accessor return the empty tuple; and a degenerate single-value
`None` result is normalized to the empty tuple (absent). -/
theorem get_header_spec (codec : Codec) (pairs : List (String × Option String)) :
    ((∀ p ∈ pairs, codec.known (p.2.getD "ascii") = true) →
      get_header codec pairs =
        if pairs.map (fun p => codec.decodeReplace (p.2.getD "ascii") p.1) = ["None"]
        then []
        else pairs.map fun p => codec.decodeReplace (p.2.getD "ascii") p.1) ∧
    ((∃ p ∈ pairs, codec.known (p.2.getD "ascii") = false) →
      get_header codec pairs = []) := by
  constructor
  · intro h
    rw [get_header, decodeHeaderValues_all_known codec pairs h]
  · intro h
    rw [get_header, decodeHeaderValues_unknown codec pairs h]

/-- C9 witness: the amended theorem's all-known clause at a concrete
codec that tags each decode with its encoding (so the declared encoding
and the ascii fallback are both visible in the output). -/
theorem get_header_spec_witness :
    get_header ⟨fun _ => true, fun e v => e ++ ":" ++ v, fun _ v => some v⟩
        [("hi", none), ("yo", some "utf-8")] = ["ascii:hi", "utf-8:yo"] := by
  rw [(get_header_spec ⟨fun _ => true, fun e v => e ++ ":" ++ v, fun _ v => some v⟩
        [("hi", none), ("yo", some "utf-8")]).1 (by intro p hp; rfl)]
  decide

/-- C6: MIME part normalization is idempotent and memoized — whenever a
call to `utf8_encode_message_part` returns a text, calling it again on
the resulting part returns the same text with zero charset-decode
invocations and an unchanged part; the text a first call computes for a
byte payload is exactly what it memoizes in `_normalized`; and
normalizing a part whose payload is already Unicode returns that payload
unchanged without invoking any charset decoding. -/
theorem utf8_encode_idempotent (codec : Codec) (mcs : Option String)
    (dflt : String) (part : MessagePart) :
    (∀ t p1 n1,
      utf8_encode_message_part codec mcs dflt part = (.text t, p1, n1) →
      utf8_encode_message_part codec mcs dflt p1 = (.text t, p1, 0)) ∧
    (∀ t p1 n1 b, part.payload = .bytes b →
      utf8_encode_message_part codec mcs dflt part = (.text t, p1, n1) →
      p1.normalized = some t) ∧
    (∀ s, part.payload = .uni s → part.normalized = none →
      (utf8_encode_message_part codec mcs dflt part).1 = .text s ∧
      (utf8_encode_message_part codec mcs dflt part).2.2 = 0) := by
  obtain ⟨pl, cs, nrm, oc⟩ := part
  have memo : ∀ t p1 n1 b, pl = .bytes b → nrm = none →
      utf8_encode_message_part codec mcs dflt ⟨pl, cs, nrm, oc⟩ = (.text t, p1, n1) →
      p1.normalized = some t := by
    intro t p1 n1 b hb hn h
    subst hb
    subst hn
    simp only [utf8_encode_message_part] at h
    repeat' split at h
    all_goals
      simp only [Prod.mk.injEq, NormResult.text.injEq, reduceCtorEq,
        false_and, and_false] at h
    all_goals
      obtain ⟨h1, h2, -⟩ := h
      subst h2
      simp [h1]
  refine ⟨?_, ?_, ?_⟩
  · intro t p1 n1 h
    cases nrm with
    | some t0 =>
      simp only [utf8_encode_message_part, Prod.mk.injEq,
        NormResult.text.injEq] at h
      obtain ⟨h1, h2, -⟩ := h
      subst h2
      simp [utf8_encode_message_part, h1]
    | none =>
      cases pl with
      | uni s =>
        simp only [utf8_encode_message_part, Prod.mk.injEq,
          NormResult.text.injEq] at h
        obtain ⟨h1, h2, -⟩ := h
        subst h2
        simp [utf8_encode_message_part, h1]
      | bytes b =>
        have hmemo := memo t p1 n1 b rfl rfl h
        simp [utf8_encode_message_part, hmemo]
  · intro t p1 n1 b hb h
    cases nrm with
    | some t0 =>
      simp only [utf8_encode_message_part, Prod.mk.injEq,
        NormResult.text.injEq] at h
      obtain ⟨h1, h2, -⟩ := h
      subst h2
      simp [h1]
    | none =>
      cases pl with
      | uni s => exact absurd hb (by simp)
      | bytes b2 => exact memo t p1 n1 b2 rfl rfl h
  · intro s hs hn
    have hs2 : pl = .uni s := hs
    have hn2 : nrm = none := hn
    subst hs2
    subst hn2
    simp [utf8_encode_message_part]

/-- C6 witness: a byte-payload part whose first normalization succeeds;
the theorem's idempotence clause applied to the concrete result. -/
theorem utf8_encode_idempotent_witness :
    utf8_encode_message_part
        ⟨fun _ => true, fun _ v => "D" ++ v, fun _ v => some v⟩ none "ascii"
        ⟨.bytes "x", some "utf-8", some "Dx", some "latin-1"⟩ =
      (.text "Dx", ⟨.bytes "x", some "utf-8", some "Dx", some "latin-1"⟩, 0) :=
  (utf8_encode_idempotent
      ⟨fun _ => true, fun _ v => "D" ++ v, fun _ v => some v⟩ none "ascii"
      ⟨.bytes "x", some "latin-1", none, none⟩).1
    "Dx" ⟨.bytes "x", some "utf-8", some "Dx", some "latin-1"⟩ 1 rfl

/-- C10: token equality is kind-sensitive — atoms are equal exactly when
their values are, an atom never equals the bare string of the same
characters (in either direction), a flag never equals an atom of the same
value (in either direction), flags are equal exactly when their values
are, and inequality is always the negation of equality. -/
theorem token_equality_spec :
    (∀ s t : String, tokenEq (.atom s) (.atom t) = true ↔ s = t) ∧
    (∀ s : String, tokenEq (.atom s) (.str s) = false) ∧
    (∀ s : String, tokenEq (.str s) (.atom s) = false) ∧
    (∀ s t : String, tokenEq (.flag s) (.atom t) = false) ∧
    (∀ s t : String, tokenEq (.atom s) (.flag t) = false) ∧
    (∀ s t : String, tokenEq (.flag s) (.flag t) = true ↔ s = t) ∧
    (∀ a b : Token, tokenNe a b = !(tokenEq a b)) := by
  refine ⟨?_, ?_, ?_, ?_, ?_, ?_, ?_⟩ <;> intros <;> simp [tokenEq, tokenNe]

end Pygmail
